import Mathlib

/- Shallow embedding of src/sainsmart_ftdi_relay_control.py.

   Device bytes and bit masks are modelled as Nat (the device byte read by
   getBitMode is always in 0..255; theorems that depend on this carry an
   explicit bound).  Relay numbers are Int, matching argparse's type=int,
   which accepts arbitrary integers that are range-checked only by
   validate_arguments.  Durations are Rat: the Python float duration is only
   ever passed through (argument, settings default, time.sleep), never
   computed with, so an exact-arithmetic stand-in is faithful; theorems that
   exercise a sleep carry a nonnegativity hypothesis because time.sleep
   raises on negative input.  Device interaction is modelled as a trace of
   actions; a write that fails leaves the latched byte unchanged (partial
   writes are not a supported outcome of the driver). -/

namespace Sainsmart

/- Exit codes, from class ExitCode. -/

namespace ExitCode

def SUCCESS : Nat := 0

def GENERAL_ERROR : Nat := 1

def NO_DEVICES_FOUND : Nat := 2

def DEVICE_NOT_FOUND : Nat := 3

def CONNECTION_FAILED : Nat := 4

def COMMAND_EXECUTION_FAILED : Nat := 5

def INVALID_ARGUMENTS : Nat := 6

def DEVICE_DISCONNECTED : Nat := 7

def PERMISSION_DENIED : Nat := 8

def DEVICE_IN_USE : Nat := 9

def INVALID_RELAY_NUMBER : Nat := 10

def CONFLICTING_FLAGS : Nat := 11

def FTDI_DRIVER_ERROR : Nat := 12

end ExitCode

/- Which branch of validate_arguments raised ConflictingFlagsError; the
   human-readable message strings of the source are formatted from exactly
   this information. -/
inductive Conflict where
  | stateWithOnOffToggle : Conflict
  | sameRelay (r : Int) : Conflict
  | durationWithoutMomentary : Conflict
deriving DecidableEq, Repr

/- The RelayControlException subclasses raised by the program. -/
inductive RelayError where
  | noDevicesFound : RelayError
  | deviceNotFound (identifier : String) : RelayError
  | connectionFailed (reason : String) : RelayError
  | deviceDisconnected : RelayError
  | invalidRelayNumber (flag : String) (relay : Int) : RelayError
  | conflictingFlags (detail : Conflict) : RelayError
  | commandExecutionFailed (reason : String) : RelayError
  | deviceInUse : RelayError
deriving DecidableEq, Repr

def RelayError.exit_code : RelayError → Nat
  | RelayError.noDevicesFound => ExitCode.NO_DEVICES_FOUND
  | RelayError.deviceNotFound _ => ExitCode.DEVICE_NOT_FOUND
  | RelayError.connectionFailed _ => ExitCode.CONNECTION_FAILED
  | RelayError.deviceDisconnected => ExitCode.DEVICE_DISCONNECTED
  | RelayError.invalidRelayNumber _ _ => ExitCode.INVALID_RELAY_NUMBER
  | RelayError.conflictingFlags _ => ExitCode.CONFLICTING_FLAGS
  | RelayError.commandExecutionFailed _ => ExitCode.COMMAND_EXECUTION_FAILED
  | RelayError.deviceInUse => ExitCode.DEVICE_IN_USE

/- One observable device interaction of a CLI run: enumeration of the FTDI
   device list, a successful open plus bit-bang setup (connect_device), a
   getBitMode read returning the given byte, a write latching the given
   byte, or a time.sleep of the given duration. -/
inductive Action where
  | enumerate : Action
  | connect : Action
  | read (b : Nat) : Action
  | write (b : Nat) : Action
  | sleep (d : ℚ) : Action
deriving DecidableEq, Repr

def writesOf (tr : List Action) : List Nat :=
  tr.filterMap fun ev =>
    match ev with
    | Action.write b => some b
    | _ => none

def readsOf (tr : List Action) : List Nat :=
  tr.filterMap fun ev =>
    match ev with
    | Action.read b => some b
    | _ => none

/- The latched device byte after a trace of actions, starting from b:
   each write replaces it, nothing else changes it. -/
def applyActions (b : Nat) (tr : List Action) : Nat :=
  tr.foldl
    (fun cur ev =>
      match ev with
      | Action.write nb => nb
      | _ => cur)
    b

/- Parsed command-line arguments (the argparse namespace fields used by
   validate_arguments / execute_relay_commands / main_cli).  An absent flag
   is none; a present relay flag is some of its nargs=+ integer list. -/
structure Args where
  list_devices : Bool := false
  device_index : Option Int := none
  device_serial : Option String := none
  state : Option (List Int) := none
  on_list : Option (List Int) := none
  off : Option (List Int) := none
  toggle : Option (List Int) := none
  momentary : Option (List Int) := none
  duration : Option ℚ := none

/- Python truthiness of an optional relay list: None and the empty list are
   falsy, a non-empty list is truthy. -/
def truthy (o : Option (List Int)) : Bool :=
  match o with
  | none => false
  | some l => !l.isEmpty

/- relays_to_mask: mask |= 1 << (relay - 1) folded over the list.  It is
   only ever called on lists that passed validate_relay_numbers, so every
   relay is in 1..4 and the Int subtraction matches Python's. -/
def relays_to_mask (relay_list : List Int) : Nat :=
  relay_list.foldl (fun mask relay => mask ||| (1 <<< (relay - 1).toNat)) 0

/- pulse_relays on a device whose latched byte is dev, with both writes
   succeeding: returns the final latched byte and the interaction trace.
   The source reads the current state, writes current OR mask, sleeps, then
   writes the saved current state back. -/
def pulse_relays (dev : Nat) (relay_list : List Int) (duration : ℚ) :
    Nat × List Action :=
  let current_state := dev
  let relay_mask := relays_to_mask relay_list
  let new_state := current_state ||| relay_mask
  (current_state,
    [Action.read current_state, Action.write new_state,
      Action.sleep duration, Action.write current_state])

/- execute_relay_commands on a device whose latched byte is dev, with all
   driver calls succeeding: returns the final latched byte and the trace.
   Python's current & ~mask on a byte-ranged current equals the Nat
   operation current AND (255 XOR mask), the 8-bit complement of the mask;
   theorems about this path assume dev < 256, which getBitMode guarantees. -/
def execute_relay_commands (dev : Nat) (a : Args) (default_duration : ℚ) :
    Nat × List Action :=
  let duration := a.duration.getD default_duration
  let (dev1, tr1) :=
    if truthy a.state then
      let mask := relays_to_mask (a.state.getD [])
      (mask, [Action.write mask])
    else
      let c0 := dev
      let c1 := if truthy a.on_list then c0 ||| relays_to_mask (a.on_list.getD []) else c0
      let c2 :=
        if truthy a.off then c1 &&& (255 ^^^ relays_to_mask (a.off.getD [])) else c1
      let c3 :=
        if truthy a.toggle then c2 ^^^ relays_to_mask (a.toggle.getD []) else c2
      if truthy a.on_list || truthy a.off || truthy a.toggle then
        (c3, [Action.read c0, Action.write c3])
      else
        (c3, [Action.read c0])
  if truthy a.momentary then
    let (dev2, tr2) := pulse_relays dev1 (a.momentary.getD []) duration
    (dev2, tr1 ++ tr2)
  else
    (dev1, tr1)

/- validate_relay_numbers raises at the first relay of the list that is not
   an int in 1..4; firstBad is that relay. -/
def firstBad (l : List Int) : Option Int :=
  match l with
  | [] => none
  | r :: rs => if 1 ≤ r ∧ r ≤ 4 then firstBad rs else some r

def validate_relay_numbers (relay_list : Option (List Int)) (flag_name : String) :
    Except RelayError Unit :=
  match relay_list with
  | none => Except.ok ()
  | some xs =>
    if xs.isEmpty then Except.ok ()
    else
      match firstBad xs with
      | some r => Except.error (RelayError.invalidRelayNumber flag_name r)
      | none => Except.ok ()

/- The off-loop of validate_arguments raises at the first relay of off_list
   that already occurs in relay_ops (which holds exactly the on-relays). -/
def firstOverlap (off_list relay_ops : List Int) : Option Int :=
  match off_list with
  | [] => none
  | r :: rs => if r ∈ relay_ops then some r else firstOverlap rs relay_ops

/- validate_arguments: range-checks the five relay lists in source order,
   then rejects a truthy state combined with a truthy on/off/toggle, then a
   relay occurring in both the on list and the off list, then a duration
   supplied without a truthy momentary. -/
def validate_arguments (a : Args) : Except RelayError Unit :=
  match validate_relay_numbers a.state "--state" with
  | Except.error e => Except.error e
  | Except.ok _ =>
    match validate_relay_numbers a.on_list "--on" with
    | Except.error e => Except.error e
    | Except.ok _ =>
      match validate_relay_numbers a.off "--off" with
      | Except.error e => Except.error e
      | Except.ok _ =>
        match validate_relay_numbers a.toggle "--toggle" with
        | Except.error e => Except.error e
        | Except.ok _ =>
          match validate_relay_numbers a.momentary "--momentary" with
          | Except.error e => Except.error e
          | Except.ok _ =>
            if truthy a.state && (truthy a.on_list || truthy a.off || truthy a.toggle) then
              Except.error (RelayError.conflictingFlags Conflict.stateWithOnOffToggle)
            else
              match firstOverlap (if truthy a.off then a.off.getD [] else [])
                  (if truthy a.on_list then a.on_list.getD [] else []) with
              | some r => Except.error (RelayError.conflictingFlags (Conflict.sameRelay r))
              | none =>
                if a.duration.isSome && !truthy a.momentary then
                  Except.error
                    (RelayError.conflictingFlags Conflict.durationWithoutMomentary)
                else
                  Except.ok ()

/- All relay numbers mentioned by any relay flag of an invocation. -/
def relay_args_all (a : Args) : List Int :=
  a.state.getD [] ++ a.on_list.getD [] ++ a.off.getD [] ++ a.toggle.getD [] ++
    a.momentary.getD []

/- list_devices: the body raises NoDevicesFoundError when
   createDeviceInfoList reports zero devices, otherwise produces the device
   records (modelled by their serials). -/
def list_devices_try (serials : List String) : Except RelayError (List String) :=
  if serials.length = 0 then Except.error RelayError.noDevicesFound
  else Except.ok serials

/- list_devices as actually executed: the raise sits inside the function's
   own try whose trailing blanket except-Exception clause catches every
   exception, NoDevicesFoundError included, logs it and returns []. -/
def list_devices (serials : List String) : List String :=
  match list_devices_try serials with
  | Except.error _ => []
  | Except.ok ds => ds

/- select_device.  iface is the outcome of select_device_interactively:
   none when the user cancels (X, Ctrl-C or EOF), some i when the prompt
   loop finally accepts index i.  The prompt loop only terminates with a
   valid index or a cancel, so the out-of-range arm below is unreachable in
   the source and is mapped to the cancel outcome.  Except.ok none means
   the source called sys.exit(SUCCESS) without connecting. -/
def select_device (devices : List String) (a : Args) (iface : Option Nat) :
    Except RelayError (Option String) :=
  match a.device_serial with
  | some s =>
    if s ∈ devices then Except.ok (some s)
    else Except.error (RelayError.deviceNotFound s)
  | none =>
    match a.device_index with
    | some i =>
      if h : 0 ≤ i ∧ i < (devices.length : Int) then
        Except.ok (some (devices.get ⟨i.toNat, by omega⟩))
      else
        Except.error (RelayError.deviceNotFound (toString i))
    | none =>
      if devices.length = 1 then Except.ok devices.head?
      else
        match iface with
        | none => Except.ok none
        | some i =>
          if h : i < devices.length then Except.ok (some (devices.get ⟨i, h⟩))
          else Except.ok none

/- The environment of one CLI run: the serials the driver would enumerate,
   the byte latched on the device at connect time, and whether connect_device
   succeeds (none) or raises the given error (some e). -/
structure World where
  serials : List String
  byte : Nat
  connect : Option RelayError

/- main_cli after argparse: the list-devices branch prints whatever
   list_devices returned and exits SUCCESS; otherwise arguments are
   validated before any device interaction, devices are enumerated, one is
   selected, the device is connected and execute_relay_commands runs, with
   every RelayControlException turned into its exit code.  Driver reads and
   writes are assumed to succeed on this path (failure of the pulse writes
   is analysed separately by pulse_relays_attempt). -/
def main_cli (w : World) (iface : Option Nat) (a : Args) (default_duration : ℚ) :
    Nat × List Action :=
  if a.list_devices then
    (ExitCode.SUCCESS, [Action.enumerate])
  else
    match validate_arguments a with
    | Except.error e => (e.exit_code, [])
    | Except.ok _ =>
      let devices := list_devices w.serials
      match select_device devices a iface with
      | Except.error e => (e.exit_code, [Action.enumerate])
      | Except.ok none => (ExitCode.SUCCESS, [Action.enumerate])
      | Except.ok (some _) =>
        match w.connect with
        | some e => (e.exit_code, [Action.enumerate])
        | none =>
          let (_, evs) := execute_relay_commands w.byte a default_duration
          (ExitCode.SUCCESS, Action.enumerate :: Action.connect :: evs)

/- The ftd.DeviceError cases set_relay_state distinguishes: a message
   containing device-not-found versus anything else. -/
inductive DriverErr where
  | notFound : DriverErr
  | other (msg : String) : DriverErr
deriving DecidableEq, Repr

/- The exception set_relay_state raises for a failed write; it depends only
   on the driver error, not on which write of a pulse failed. -/
def set_relay_state_error : DriverErr → RelayError
  | DriverErr.notFound => RelayError.deviceDisconnected
  | DriverErr.other msg => RelayError.commandExecutionFailed msg

/- set_relay_state with an injected write outcome: on success the byte
   lands and becomes the latched state, on failure the latched byte is
   unchanged (partial writes are not a supported outcome) and the mapped
   exception propagates. -/
def set_relay_state (relay_mask : Nat) (outcome : Option DriverErr) :
    Except RelayError Nat :=
  match outcome with
  | none => Except.ok relay_mask
  | some e => Except.error (set_relay_state_error e)

/- pulse_relays with injected outcomes for its two writes: result of the
   call, the byte left latched on the device, and the list of write
   attempts actually made (in order).  The source makes no retry: a failed
   first write aborts before the sleep, a failed restore write propagates
   with the relays still pulsed. -/
def pulse_relays_attempt (dev : Nat) (relay_list : List Int) (_duration : ℚ)
    (w1 w2 : Option DriverErr) : Except RelayError Unit × Nat × List Nat :=
  let current_state := dev
  let relay_mask := relays_to_mask relay_list
  let new_state := current_state ||| relay_mask
  match set_relay_state new_state w1 with
  | Except.error e => (Except.error e, dev, [new_state])
  | Except.ok dev1 =>
    match set_relay_state current_state w2 with
    | Except.error e => (Except.error e, dev1, [new_state, current_state])
    | Except.ok dev2 => (Except.ok (), dev2, [new_state, current_state])

/- Argument vectors used by the theorems below. -/

def on_only (R : List Int) : Args := { on_list := some R }

def off_only (R : List Int) : Args := { off := some R }

def toggle_only (R : List Int) : Args := { toggle := some R }

def state_only (R : List Int) : Args := { state := some R }

def state_momentary (S M : List Int) : Args := { state := some S, momentary := some M }

def no_intent_args : Args := {}

/- Helper lemmas about relays_to_mask. -/

theorem relays_to_mask_go (R : List Int) :
    ∀ (acc : Nat) (i : Nat),
      (R.foldl (fun mask relay => mask ||| (1 <<< (relay - 1).toNat)) acc).testBit i
        = (acc.testBit i || R.any fun r => decide ((r - 1).toNat = i)) := by
  induction R with
  | nil => intro acc i; simp
  | cons r rs ih =>
    intro acc i
    rw [List.foldl_cons, List.any_cons, ih, Nat.testBit_or, Nat.one_shiftLeft,
      Nat.testBit_two_pow, Bool.or_assoc]

theorem relays_to_mask_testBit (R : List Int) (i : Nat) :
    (relays_to_mask R).testBit i = R.any fun r => decide ((r - 1).toNat = i) := by
  have h := relays_to_mask_go R 0 i
  simpa [relays_to_mask] using h

theorem relays_to_mask_lt_16 {R : List Int} (h : ∀ r ∈ R, 1 ≤ r ∧ r ≤ 4) :
    relays_to_mask R < 16 := by
  suffices hgen : ∀ (R : List Int), (∀ r ∈ R, 1 ≤ r ∧ r ≤ 4) → ∀ acc : Nat, acc < 16 →
      R.foldl (fun mask relay => mask ||| (1 <<< (relay - 1).toNat)) acc < 16 by
    exact hgen R h 0 (by norm_num)
  intro R
  induction R with
  | nil => intro _ acc hacc; simpa using hacc
  | cons r rs ih =>
    intro hmem acc hacc
    rw [List.foldl_cons]
    apply ih (fun s hs => hmem s (List.mem_cons_of_mem _ hs))
    have hr := hmem r (List.mem_cons_self r rs)
    have hle : (r - 1).toNat ≤ 3 := by omega
    have hpow : 1 <<< (r - 1).toNat < 16 := by
      rw [Nat.one_shiftLeft]
      calc 2 ^ (r - 1).toNat ≤ 2 ^ 3 := Nat.pow_le_pow_right (by norm_num) hle
        _ < 16 := by norm_num
    have : acc ||| 1 <<< (r - 1).toNat < 2 ^ 4 :=
      Nat.or_lt_two_pow (by simpa using hacc) (by simpa using hpow)
    simpa using this

theorem testBit_eq_false_of_lt_of_le {x i n : Nat} (hx : x < 2 ^ n) (hn : n ≤ i) :
    x.testBit i = false :=
  Nat.testBit_lt_two_pow (lt_of_lt_of_le hx (Nat.pow_le_pow_right (by norm_num) hn))

theorem and_255_of_lt {c : Nat} (h : c < 256) : c &&& 255 = c := by
  apply Nat.eq_of_testBit_eq
  intro i
  rw [Nat.testBit_and, show (255 : Nat) = 2 ^ 8 - 1 by norm_num,
    Nat.testBit_two_pow_sub_one]
  by_cases hi : i < 8
  · simp [hi]
  · have hc : c.testBit i = false :=
      testBit_eq_false_of_lt_of_le (n := 8) (by norm_num [h]) (by omega)
    simp [hi, hc]

/- Evaluation lemmas for execute_relay_commands on the argument shapes the
   claims are about. -/

theorem execute_on_only (B : Nat) (R : List Int) (q : ℚ) (h : R ≠ []) :
    execute_relay_commands B (on_only R) q
      = (B ||| relays_to_mask R,
          [Action.read B, Action.write (B ||| relays_to_mask R)]) := by
  have hE : R.isEmpty = false := List.isEmpty_eq_false.2 h
  simp [execute_relay_commands, on_only, truthy, hE]

theorem execute_off_only (B : Nat) (R : List Int) (q : ℚ) (h : R ≠ []) :
    execute_relay_commands B (off_only R) q
      = (B &&& (255 ^^^ relays_to_mask R),
          [Action.read B, Action.write (B &&& (255 ^^^ relays_to_mask R))]) := by
  have hE : R.isEmpty = false := List.isEmpty_eq_false.2 h
  simp [execute_relay_commands, off_only, truthy, hE]

theorem execute_toggle_only (B : Nat) (R : List Int) (q : ℚ) (h : R ≠ []) :
    execute_relay_commands B (toggle_only R) q
      = (B ^^^ relays_to_mask R,
          [Action.read B, Action.write (B ^^^ relays_to_mask R)]) := by
  have hE : R.isEmpty = false := List.isEmpty_eq_false.2 h
  simp [execute_relay_commands, toggle_only, truthy, hE]

theorem execute_state_only (B : Nat) (R : List Int) (q : ℚ) (h : R ≠ []) :
    execute_relay_commands B (state_only R) q
      = (relays_to_mask R, [Action.write (relays_to_mask R)]) := by
  have hE : R.isEmpty = false := List.isEmpty_eq_false.2 h
  simp [execute_relay_commands, state_only, truthy, hE]

theorem execute_no_intent (B : Nat) (q : ℚ) :
    execute_relay_commands B no_intent_args q = (B, [Action.read B]) := rfl

theorem execute_state_momentary (B : Nat) (S M : List Int) (q : ℚ)
    (hS : S ≠ []) (hM : M ≠ []) :
    execute_relay_commands B (state_momentary S M) q
      = (relays_to_mask S,
          [Action.write (relays_to_mask S), Action.read (relays_to_mask S),
            Action.write (relays_to_mask S ||| relays_to_mask M),
            Action.sleep q, Action.write (relays_to_mask S)]) := by
  have hSE : S.isEmpty = false := List.isEmpty_eq_false.2 hS
  have hME : M.isEmpty = false := List.isEmpty_eq_false.2 hM
  simp [execute_relay_commands, state_momentary, truthy, hSE, hME, pulse_relays]

/-- C2: for every relay list R and every duration d at least 0, the momentary
pulse performs exactly read C, write C OR mask_of R, sleep d, write C back
verbatim; with both writes succeeding the final device byte is C, the byte
held between the two writes is C OR mask_of R, and at d = 0 both writes
still occur with no special-case skip. -/
theorem C2_pulse_protocol : ∀ (C : Nat) (R : List Int) (d : ℚ), 0 ≤ d →
    pulse_relays C R d
      = (C, [Action.read C, Action.write (C ||| relays_to_mask R),
          Action.sleep d, Action.write C]) ∧
    applyActions C (List.take 2 (pulse_relays C R d).2) = C ||| relays_to_mask R ∧
    applyActions C (pulse_relays C R d).2 = C ∧
    writesOf (pulse_relays C R d).2 = [C ||| relays_to_mask R, C] := by
  intro C R d _
  exact ⟨rfl, rfl, rfl, rfl⟩

theorem C2_pulse_protocol_witness :
    (0 : ℚ) ≤ 0 ∧
    pulse_relays 1 [2] 0
      = (1, [Action.read 1, Action.write (1 ||| relays_to_mask [2]),
          Action.sleep 0, Action.write 1]) :=
  ⟨le_refl 0, (C2_pulse_protocol 1 [2] 0 (le_refl 0)).1⟩

/-- C4 counterexample: with the same driver fault, the error raised when the
initial pulse write fails equals the error raised when the restore write
fails, while the byte left on the device differs (0 versus 1): the caller
cannot tell from the reported error whether the relays were left pulsed. -/
theorem C4_counterexample :
    (pulse_relays_attempt 0 [1] 0 (some (DriverErr.other "boom")) none).1
      = (pulse_relays_attempt 0 [1] 0 none (some (DriverErr.other "boom"))).1 ∧
    (pulse_relays_attempt 0 [1] 0 (some (DriverErr.other "boom")) none).2.1 = 0 ∧
    (pulse_relays_attempt 0 [1] 0 none (some (DriverErr.other "boom"))).2.1 = 1 :=
  ⟨rfl, rfl, rfl⟩

/-- C4 (amended): when the pulse's first write succeeds and the restore write
fails, the mapped driver error propagates, the relays remain in the pulsed
state C OR mask_of R, exactly the two write attempts occur (no retry) — but
the error equals the one an initial-write failure with the same driver fault
raises, so the caller cannot tell from the reported error which write
failed. -/
theorem C4_restore_failure : ∀ (C : Nat) (R : List Int) (d : ℚ) (e : DriverErr),
    0 ≤ d →
    (pulse_relays_attempt C R d none (some e)).1
      = Except.error (set_relay_state_error e) ∧
    (pulse_relays_attempt C R d none (some e)).2.1 = C ||| relays_to_mask R ∧
    (pulse_relays_attempt C R d none (some e)).2.2
      = [C ||| relays_to_mask R, C] ∧
    (pulse_relays_attempt C R d none (some e)).1
      = (pulse_relays_attempt C R d (some e) none).1 := by
  intro C R d e _
  exact ⟨rfl, rfl, rfl, rfl⟩

theorem C4_restore_failure_witness :
    (0 : ℚ) ≤ 0 ∧
    (pulse_relays_attempt 3 [2] 0 none (some DriverErr.notFound)).1
      = Except.error (set_relay_state_error DriverErr.notFound) :=
  ⟨le_refl 0, (C4_restore_failure 3 [2] 0 DriverErr.notFound (le_refl 0)).1⟩

/-- C5: with zero devices enumerated, list_devices raises NoDevicesFoundError
inside its own try whose blanket except clause catches it and returns the
empty list, so the list-devices invocation prints an empty device list and
exits SUCCESS (0) instead of NO_DEVICES_FOUND (2). -/
theorem C5_list_devices_zero_exits_success :
    list_devices_try [] = Except.error RelayError.noDevicesFound ∧
    list_devices [] = [] ∧
    main_cli ⟨[], 0, none⟩ none { list_devices := true } 0
      = (ExitCode.SUCCESS, [Action.enumerate]) ∧
    ExitCode.SUCCESS ≠ ExitCode.NO_DEVICES_FOUND :=
  ⟨rfl, rfl, rfl, by decide⟩

/-- C1: for every current byte B in 0..255 and every valid non-empty relay
list R, a single-intent invocation writes exactly current OR mask for on,
current AND NOT mask (8-bit complement) for off, current XOR mask for
toggle, and exactly mask_of R for state regardless of B; consequently
on/off/toggle leave bits 4..7 of B unchanged and the state write has every
bit outside mask_of R clear, bits 4..7 included. -/
theorem C1_single_intent_bytes : ∀ (B : Nat) (R : List Int) (q : ℚ),
    B < 256 → R ≠ [] → (∀ r ∈ R, 1 ≤ r ∧ r ≤ 4) →
    writesOf (execute_relay_commands B (on_only R) q).2
      = [B ||| relays_to_mask R] ∧
    writesOf (execute_relay_commands B (off_only R) q).2
      = [B &&& (255 ^^^ relays_to_mask R)] ∧
    writesOf (execute_relay_commands B (toggle_only R) q).2
      = [B ^^^ relays_to_mask R] ∧
    writesOf (execute_relay_commands B (state_only R) q).2
      = [relays_to_mask R] ∧
    (∀ i, 4 ≤ i →
      (B ||| relays_to_mask R).testBit i = B.testBit i ∧
      (B &&& (255 ^^^ relays_to_mask R)).testBit i = B.testBit i ∧
      (B ^^^ relays_to_mask R).testBit i = B.testBit i ∧
      (relays_to_mask R).testBit i = false) := by
  intro B R q hB hne hval
  have hm16 : relays_to_mask R < 16 := relays_to_mask_lt_16 hval
  have hmbit : ∀ i, 4 ≤ i → (relays_to_mask R).testBit i = false := fun i hi =>
    testBit_eq_false_of_lt_of_le (n := 4) (lt_of_lt_of_eq hm16 (by norm_num)) hi
  refine ⟨?_, ?_, ?_, ?_, ?_⟩
  · rw [execute_on_only B R q hne]; rfl
  · rw [execute_off_only B R q hne]; rfl
  · rw [execute_toggle_only B R q hne]; rfl
  · rw [execute_state_only B R q hne]; rfl
  · intro i hi
    have hmb := hmbit i hi
    refine ⟨?_, ?_, ?_, hmb⟩
    · rw [Nat.testBit_or, hmb, Bool.or_false]
    · rw [Nat.testBit_and, Nat.testBit_xor,
        show (255 : Nat) = 2 ^ 8 - 1 by norm_num, Nat.testBit_two_pow_sub_one, hmb]
      by_cases h8 : i < 8
      · simp [h8]
      · have hB8 : B.testBit i = false :=
          testBit_eq_false_of_lt_of_le (n := 8)
            (lt_of_lt_of_eq hB (by norm_num)) (by omega)
        simp [h8, hB8]
    · rw [Nat.testBit_xor, hmb, Bool.xor_false]

theorem C1_single_intent_bytes_witness :
    (5 : Nat) < 256 ∧ ([1, 3] : List Int) ≠ [] ∧
    (∀ r ∈ ([1, 3] : List Int), 1 ≤ r ∧ r ≤ 4) ∧
    writesOf (execute_relay_commands 5 (on_only [1, 3]) 0).2
      = [5 ||| relays_to_mask [1, 3]] :=
  ⟨by norm_num, by decide, by decide,
    (C1_single_intent_bytes 5 [1, 3] 0 (by norm_num) (by decide) (by decide)).1⟩

/-- C7: relays_to_mask sets exactly the bits at position r - 1 for the
relays r of its list — bit i is set iff relay i + 1 occurs in the list —
the result stays below 16 (all bits within 0..3), and duplicate relay
numbers do not change the result. -/
theorem C7_relays_to_mask_bits : ∀ (R : List Int), (∀ r ∈ R, 1 ≤ r ∧ r ≤ 4) →
    (∀ i : Nat, (relays_to_mask R).testBit i = true ↔ ∃ r ∈ R, r = (i : Int) + 1) ∧
    relays_to_mask R < 16 ∧
    relays_to_mask R.dedup = relays_to_mask R := by
  intro R h
  refine ⟨?_, relays_to_mask_lt_16 h, ?_⟩
  · intro i
    rw [relays_to_mask_testBit, List.any_eq_true]
    constructor
    · rintro ⟨r, hrR, hd⟩
      have hd' : (r - 1).toNat = i := of_decide_eq_true hd
      have hr := h r hrR
      exact ⟨r, hrR, by omega⟩
    · rintro ⟨r, hrR, rfl⟩
      exact ⟨(i : Int) + 1, hrR, decide_eq_true (by omega)⟩
  · apply Nat.eq_of_testBit_eq
    intro i
    rw [relays_to_mask_testBit, relays_to_mask_testBit]
    apply Bool.eq_iff_iff.mpr
    simp only [List.any_eq_true, List.mem_dedup]

theorem C7_relays_to_mask_bits_witness :
    (∀ r ∈ ([1, 3, 3] : List Int), 1 ≤ r ∧ r ≤ 4) ∧
    relays_to_mask ([1, 3, 3] : List Int) < 16 ∧
    relays_to_mask (([1, 3, 3] : List Int)).dedup = relays_to_mask [1, 3, 3] :=
  ⟨by decide, (C7_relays_to_mask_bits [1, 3, 3] (by decide)).2.1,
    (C7_relays_to_mask_bits [1, 3, 3] (by decide)).2.2⟩

/-- C8: the toggle transition is an involution — running the toggle-only
invocation twice from any byte B returns the device to exactly B (for an
empty list both runs are identity, otherwise XOR with the mask cancels). -/
theorem C8_toggle_involution : ∀ (B : Nat) (R : List Int) (q : ℚ),
    (execute_relay_commands (execute_relay_commands B (toggle_only R) q).1
        (toggle_only R) q).1 = B := by
  intro B R q
  rcases eq_or_ne R [] with h | h
  · subst h; rfl
  · have h1 : ∀ X : Nat, execute_relay_commands X (toggle_only R) q
        = (X ^^^ relays_to_mask R,
            [Action.read X, Action.write (X ^^^ relays_to_mask R)]) :=
      fun X => execute_toggle_only X R q h
    simp [h1, Nat.xor_cancel_right]

/- Helper lemmas about validate_arguments. -/

theorem firstBad_eq_none_iff (xs : List Int) :
    firstBad xs = none ↔ ∀ r ∈ xs, 1 ≤ r ∧ r ≤ 4 := by
  induction xs with
  | nil => simp [firstBad]
  | cons r rs ih =>
    simp only [firstBad, List.forall_mem_cons]
    by_cases h : 1 ≤ r ∧ r ≤ 4
    · simp [h, ih]
    · simp [h]

theorem validate_relay_numbers_ok_iff (l : Option (List Int)) (f : String) :
    validate_relay_numbers l f = Except.ok () ↔ ∀ r ∈ l.getD [], 1 ≤ r ∧ r ≤ 4 := by
  cases l with
  | none => simp [validate_relay_numbers]
  | some xs =>
    simp only [validate_relay_numbers, Option.getD_some]
    cases hE : xs.isEmpty
    · simp only [Bool.false_eq_true, if_false]
      cases hfb : firstBad xs with
      | none => exact iff_of_true rfl ((firstBad_eq_none_iff xs).1 hfb)
      | some r =>
        constructor
        · intro hx; exact absurd hx (by simp)
        · intro hall
          have hn := (firstBad_eq_none_iff xs).2 hall
          rw [hfb] at hn
          exact Option.noConfusion hn
    · have : xs = [] := List.isEmpty_iff.1 hE
      subst this
      simp

theorem validate_relay_numbers_shape (l : Option (List Int)) (f : String) :
    validate_relay_numbers l f = Except.ok ()
      ∨ ∃ r, validate_relay_numbers l f
          = Except.error (RelayError.invalidRelayNumber f r) := by
  cases l with
  | none => exact Or.inl rfl
  | some xs =>
    simp only [validate_relay_numbers]
    cases hE : xs.isEmpty
    · cases hfb : firstBad xs with
      | none => left; simp
      | some r => right; exact ⟨r, by simp⟩
    · left; simp

theorem firstOverlap_eq_none_iff (xs ys : List Int) :
    firstOverlap xs ys = none ↔ ∀ r ∈ xs, r ∉ ys := by
  induction xs with
  | nil => simp [firstOverlap]
  | cons r rs ih =>
    simp only [firstOverlap, List.forall_mem_cons]
    by_cases h : r ∈ ys
    · simp [h]
    · simp [h, ih]

theorem firstOverlap_isSome_of {xs ys : List Int} {r : Int}
    (hx : r ∈ xs) (hy : r ∈ ys) : ∃ r', firstOverlap xs ys = some r' := by
  cases hfo : firstOverlap xs ys with
  | some r' => exact ⟨r', rfl⟩
  | none => exact absurd hy ((firstOverlap_eq_none_iff xs ys).1 hfo r hx)

theorem mem_relay_args_all {a : Args} {r : Int}
    (h : r ∈ a.state.getD [] ∨ r ∈ a.on_list.getD [] ∨ r ∈ a.off.getD []
      ∨ r ∈ a.toggle.getD [] ∨ r ∈ a.momentary.getD []) :
    r ∈ relay_args_all a := by
  simp only [relay_args_all, List.mem_append]
  tauto

theorem validate_arguments_invalid {a : Args}
    (h : ∃ r ∈ relay_args_all a, ¬(1 ≤ r ∧ r ≤ 4)) :
    ∃ f r, validate_arguments a = Except.error (RelayError.invalidRelayNumber f r) := by
  obtain ⟨r0, hr0mem, hr0⟩ := h
  rcases validate_relay_numbers_shape a.state "--state" with h1 | ⟨r, h1⟩
  · rcases validate_relay_numbers_shape a.on_list "--on" with h2 | ⟨r, h2⟩
    · rcases validate_relay_numbers_shape a.off "--off" with h3 | ⟨r, h3⟩
      · rcases validate_relay_numbers_shape a.toggle "--toggle" with h4 | ⟨r, h4⟩
        · rcases validate_relay_numbers_shape a.momentary "--momentary" with h5 | ⟨r, h5⟩
          · exfalso
            apply hr0
            have hmem := hr0mem
            simp only [relay_args_all, List.mem_append] at hmem
            rcases hmem with ((((hm | hm) | hm) | hm) | hm)
            · exact (validate_relay_numbers_ok_iff a.state "--state").1 h1 r0 hm
            · exact (validate_relay_numbers_ok_iff a.on_list "--on").1 h2 r0 hm
            · exact (validate_relay_numbers_ok_iff a.off "--off").1 h3 r0 hm
            · exact (validate_relay_numbers_ok_iff a.toggle "--toggle").1 h4 r0 hm
            · exact (validate_relay_numbers_ok_iff a.momentary "--momentary").1 h5 r0 hm
          · exact ⟨"--momentary", r, by simp [validate_arguments, h1, h2, h3, h4, h5]⟩
        · exact ⟨"--toggle", r, by simp [validate_arguments, h1, h2, h3, h4]⟩
      · exact ⟨"--off", r, by simp [validate_arguments, h1, h2, h3]⟩
    · exact ⟨"--on", r, by simp [validate_arguments, h1, h2]⟩
  · exact ⟨"--state", r, by simp [validate_arguments, h1]⟩

theorem validate_ranges_ok {a : Args} (hok : ∀ r ∈ relay_args_all a, 1 ≤ r ∧ r ≤ 4) :
    validate_relay_numbers a.state "--state" = Except.ok ()
      ∧ validate_relay_numbers a.on_list "--on" = Except.ok ()
      ∧ validate_relay_numbers a.off "--off" = Except.ok ()
      ∧ validate_relay_numbers a.toggle "--toggle" = Except.ok ()
      ∧ validate_relay_numbers a.momentary "--momentary" = Except.ok () := by
  refine ⟨(validate_relay_numbers_ok_iff _ _).2 ?_, (validate_relay_numbers_ok_iff _ _).2 ?_,
    (validate_relay_numbers_ok_iff _ _).2 ?_, (validate_relay_numbers_ok_iff _ _).2 ?_,
    (validate_relay_numbers_ok_iff _ _).2 ?_⟩ <;>
    intro r hr
  · exact hok r (mem_relay_args_all (Or.inl hr))
  · exact hok r (mem_relay_args_all (Or.inr (Or.inl hr)))
  · exact hok r (mem_relay_args_all (Or.inr (Or.inr (Or.inl hr))))
  · exact hok r (mem_relay_args_all (Or.inr (Or.inr (Or.inr (Or.inl hr)))))
  · exact hok r (mem_relay_args_all (Or.inr (Or.inr (Or.inr (Or.inr hr)))))

theorem validate_arguments_conflict {a : Args}
    (hok : ∀ r ∈ relay_args_all a, 1 ≤ r ∧ r ≤ 4)
    (hc : (truthy a.state && (truthy a.on_list || truthy a.off || truthy a.toggle)) = true
      ∨ (∃ r, r ∈ a.on_list.getD [] ∧ r ∈ a.off.getD [])
      ∨ (a.duration.isSome && !truthy a.momentary) = true) :
    ∃ c, validate_arguments a = Except.error (RelayError.conflictingFlags c) := by
  obtain ⟨h1, h2, h3, h4, h5⟩ := validate_ranges_ok hok
  by_cases hc1 : (truthy a.state && (truthy a.on_list || truthy a.off || truthy a.toggle)) = true
  · exact ⟨Conflict.stateWithOnOffToggle, by simp [validate_arguments, h1, h2, h3, h4, h5, hc1]⟩
  · have hc1f : (truthy a.state && (truthy a.on_list || truthy a.off || truthy a.toggle))
        = false := eq_false_of_ne_true hc1
    by_cases hov : ∃ r, r ∈ a.on_list.getD [] ∧ r ∈ a.off.getD []
    · obtain ⟨r, hron, hroff⟩ := hov
      have hontruthy : truthy a.on_list = true := by
        cases hl : a.on_list with
        | none => rw [hl] at hron; simp at hron
        | some l =>
          rw [hl] at hron
          cases l with
          | nil => simp at hron
          | cons x xs => simp [truthy, hl]
      have hofftruthy : truthy a.off = true := by
        cases hl : a.off with
        | none => rw [hl] at hroff; simp at hroff
        | some l =>
          rw [hl] at hroff
          cases l with
          | nil => simp at hroff
          | cons x xs => simp [truthy, hl]
      obtain ⟨r', hfo⟩ :=
        firstOverlap_isSome_of hroff hron
      have hstate : truthy a.state = false := by
        rw [hontruthy] at hc1f
        simpa using hc1f
      refine ⟨Conflict.sameRelay r', ?_⟩
      simp [validate_arguments, h1, h2, h3, h4, h5, hstate, hontruthy, hofftruthy, hfo]
    · have hdur : (a.duration.isSome && !truthy a.momentary) = true := by
        rcases hc with h | h | h
        · exact absurd h hc1
        · exact absurd h hov
        · exact h
      have hfo : firstOverlap (if truthy a.off then a.off.getD [] else [])
          (if truthy a.on_list then a.on_list.getD [] else []) = none := by
        apply (firstOverlap_eq_none_iff _ _).2
        intro r hrmem hrmem2
        apply hov
        refine ⟨r, ?_, ?_⟩
        · by_cases ht : truthy a.on_list = true
          · rw [if_pos ht] at hrmem2; exact hrmem2
          · rw [if_neg ht] at hrmem2; exact absurd hrmem2 (List.not_mem_nil r)
        · by_cases ht : truthy a.off = true
          · rw [if_pos ht] at hrmem; exact hrmem
          · rw [if_neg ht] at hrmem; exact absurd hrmem (List.not_mem_nil r)
      exact ⟨Conflict.durationWithoutMomentary,
        by simp [validate_arguments, h1, h2, h3, h4, h5, hc1f, hfo, hdur]⟩

theorem validate_arguments_state_conflict {a : Args}
    (hok : ∀ r ∈ relay_args_all a, 1 ≤ r ∧ r ≤ 4)
    (hc : (truthy a.state && (truthy a.on_list || truthy a.off || truthy a.toggle)) = true) :
    validate_arguments a
      = Except.error (RelayError.conflictingFlags Conflict.stateWithOnOffToggle) := by
  obtain ⟨h1, h2, h3, h4, h5⟩ := validate_ranges_ok hok
  simp [validate_arguments, h1, h2, h3, h4, h5, hc]

theorem validate_arguments_ok_of {a : Args}
    (hok : ∀ r ∈ relay_args_all a, 1 ≤ r ∧ r ≤ 4)
    (h1 : (truthy a.state && (truthy a.on_list || truthy a.off || truthy a.toggle)) = false)
    (h2 : ∀ r ∈ a.off.getD [], r ∉ a.on_list.getD [])
    (h3 : (a.duration.isSome && !truthy a.momentary) = false) :
    validate_arguments a = Except.ok () := by
  obtain ⟨hv1, hv2, hv3, hv4, hv5⟩ := validate_ranges_ok hok
  have hfo : firstOverlap (if truthy a.off then a.off.getD [] else [])
      (if truthy a.on_list then a.on_list.getD [] else []) = none := by
    apply (firstOverlap_eq_none_iff _ _).2
    intro r hrmem hrmem2
    have hroff : r ∈ a.off.getD [] := by
      by_cases ht : truthy a.off = true
      · rw [if_pos ht] at hrmem; exact hrmem
      · rw [if_neg ht] at hrmem; exact absurd hrmem (List.not_mem_nil r)
    have hron : r ∈ a.on_list.getD [] := by
      by_cases ht : truthy a.on_list = true
      · rw [if_pos ht] at hrmem2; exact hrmem2
      · rw [if_neg ht] at hrmem2; exact absurd hrmem2 (List.not_mem_nil r)
    exact h2 r hroff hron
  simp [validate_arguments, hv1, hv2, hv3, hv4, hv5, h1, hfo, h3]

theorem main_cli_validation_error {w : World} {iface : Option Nat} {a : Args}
    {q : ℚ} {e : RelayError} (hl : a.list_devices = false)
    (hv : validate_arguments a = Except.error e) :
    main_cli w iface a q = (e.exit_code, []) := by
  simp [main_cli, hl, hv]

/-- C3 counterexample: an invocation that carries the out-of-range relay 5
in its on flag together with the list-devices flag exits SUCCESS after
enumerating devices — it does not fail with InvalidRelayNumber, because the
list-devices branch of main_cli returns before validate_arguments runs. -/
theorem C3_counterexample :
    main_cli ⟨["A"], 0, none⟩ none { list_devices := true, on_list := some [5] } 0
      = (ExitCode.SUCCESS, [Action.enumerate]) ∧
    ExitCode.SUCCESS ≠ ExitCode.INVALID_RELAY_NUMBER :=
  ⟨rfl, by decide⟩

/-- C3 (amended): for every invocation not requesting list-devices, an
out-of-range relay number in any flag makes main_cli exit with
INVALID_RELAY_NUMBER before any device action, and (with all relays in
range) a flag conflict — state with on/off/toggle, the same relay in both
the on list and the off list, or a duration without momentary — makes it
exit with CONFLICTING_FLAGS before any device action; a list-devices
invocation skips validation entirely. -/
theorem C3_validation_before_device_io :
    ∀ (w : World) (iface : Option Nat) (a : Args) (q : ℚ),
    a.list_devices = false →
    ((∃ r ∈ relay_args_all a, ¬(1 ≤ r ∧ r ≤ 4)) →
      main_cli w iface a q = (ExitCode.INVALID_RELAY_NUMBER, [])) ∧
    ((∀ r ∈ relay_args_all a, 1 ≤ r ∧ r ≤ 4) →
      ((truthy a.state && (truthy a.on_list || truthy a.off || truthy a.toggle)) = true
        ∨ (∃ r, r ∈ a.on_list.getD [] ∧ r ∈ a.off.getD [])
        ∨ (a.duration.isSome && !truthy a.momentary) = true) →
      main_cli w iface a q = (ExitCode.CONFLICTING_FLAGS, [])) := by
  intro w iface a q hl
  constructor
  · intro h
    obtain ⟨f, r, hv⟩ := validate_arguments_invalid h
    exact main_cli_validation_error hl hv
  · intro hok hc
    obtain ⟨c, hv⟩ := validate_arguments_conflict hok hc
    exact main_cli_validation_error hl hv

theorem C3_validation_before_device_io_witness :
    (({ on_list := some [5] } : Args).list_devices = false) ∧
    (∃ r ∈ relay_args_all { on_list := some [5] }, ¬(1 ≤ r ∧ r ≤ 4)) ∧
    main_cli ⟨["A"], 0, none⟩ none { on_list := some [5] } 0
      = (ExitCode.INVALID_RELAY_NUMBER, []) :=
  ⟨rfl, by decide,
    (C3_validation_before_device_io ⟨["A"], 0, none⟩ none { on_list := some [5] } 0
      rfl).1 (by decide)⟩

/-- C6 counterexample: an invocation combining the absolute-set intent
state with the momentary intent passes validation, and execution runs both:
it writes mask_of state, then pulses from that byte as baseline — so
validation does not reject every combination of state with another relay
intent. -/
theorem C6_counterexample :
    validate_arguments { state := some [1], momentary := some [2] }
      = Except.ok () ∧
    (execute_relay_commands 0 { state := some [1], momentary := some [2] } 0).2
      = [Action.write 1, Action.read 1, Action.write 3,
          Action.sleep 0, Action.write 1] :=
  ⟨rfl, rfl⟩

/-- C6 (amended): validation rejects state combined with on, off or toggle
with the ConflictingFlags state-conflict error, but state combined with
momentary passes validation and both intents execute in one invocation:
the state mask is written, then the pulse runs with that mask as its
current baseline. -/
theorem C6_state_mutual_exclusion :
    ∀ (S M O : List Int) (B : Nat) (q : ℚ),
    (∀ r ∈ S, 1 ≤ r ∧ r ≤ 4) → (∀ r ∈ M, 1 ≤ r ∧ r ≤ 4) →
    (∀ r ∈ O, 1 ≤ r ∧ r ≤ 4) →
    S ≠ [] → M ≠ [] → O ≠ [] → 0 ≤ q →
    validate_arguments { state := some S, on_list := some O }
      = Except.error (RelayError.conflictingFlags Conflict.stateWithOnOffToggle) ∧
    validate_arguments { state := some S, off := some O }
      = Except.error (RelayError.conflictingFlags Conflict.stateWithOnOffToggle) ∧
    validate_arguments { state := some S, toggle := some O }
      = Except.error (RelayError.conflictingFlags Conflict.stateWithOnOffToggle) ∧
    validate_arguments (state_momentary S M) = Except.ok () ∧
    (execute_relay_commands B (state_momentary S M) q).2
      = [Action.write (relays_to_mask S), Action.read (relays_to_mask S),
          Action.write (relays_to_mask S ||| relays_to_mask M),
          Action.sleep q, Action.write (relays_to_mask S)] := by
  intro S M O B q hS hM hO hSne hMne hOne _
  have hSt : truthy (some S) = true := by
    simp [truthy, List.isEmpty_eq_false.2 hSne]
  have hMt : truthy (some M) = true := by
    simp [truthy, List.isEmpty_eq_false.2 hMne]
  have hOt : truthy (some O) = true := by
    simp [truthy, List.isEmpty_eq_false.2 hOne]
  refine ⟨?_, ?_, ?_, ?_, by rw [execute_state_momentary B S M q hSne hMne]⟩
  · apply validate_arguments_state_conflict
    · intro r hr
      simp only [relay_args_all, List.mem_append] at hr
      rcases hr with ((((hm | hm) | hm) | hm) | hm) <;>
        first
          | exact hS r (by simpa using hm)
          | exact hO r (by simpa using hm)
          | simp at hm
    · simp [hSt, hOt]
  · apply validate_arguments_state_conflict
    · intro r hr
      simp only [relay_args_all, List.mem_append] at hr
      rcases hr with ((((hm | hm) | hm) | hm) | hm) <;>
        first
          | exact hS r (by simpa using hm)
          | exact hO r (by simpa using hm)
          | simp at hm
    · simp [hSt, hOt]
  · apply validate_arguments_state_conflict
    · intro r hr
      simp only [relay_args_all, List.mem_append] at hr
      rcases hr with ((((hm | hm) | hm) | hm) | hm) <;>
        first
          | exact hS r (by simpa using hm)
          | exact hO r (by simpa using hm)
          | simp at hm
    · simp [hSt, hOt]
  · apply validate_arguments_ok_of
    · intro r hr
      simp only [relay_args_all, state_momentary, List.mem_append] at hr
      rcases hr with ((((hm | hm) | hm) | hm) | hm) <;>
        first
          | exact hS r (by simpa using hm)
          | exact hM r (by simpa using hm)
          | simp at hm
    · simp [state_momentary, truthy]
    · simp [state_momentary]
    · simp [state_momentary]

theorem C6_state_mutual_exclusion_witness :
    (∀ r ∈ ([1] : List Int), 1 ≤ r ∧ r ≤ 4) ∧ ([1] : List Int) ≠ [] ∧
    (0 : ℚ) ≤ 0 ∧
    validate_arguments (state_momentary [1] [2]) = Except.ok () :=
  ⟨by decide, by decide, le_refl 0,
    (C6_state_mutual_exclusion [1] [2] [3] 0 0 (by decide) (by decide) (by decide)
      (by decide) (by decide) (by decide) (le_refl 0)).2.2.2.1⟩

theorem relays_to_mask_nil : relays_to_mask [] = 0 := rfl

theorem or_lt_256 {B m : Nat} (hB : B < 256) (hm : m < 16) : B ||| m < 256 := by
  have h : B ||| m < 2 ^ 8 :=
    Nat.or_lt_two_pow (lt_of_lt_of_eq hB (by norm_num))
      (lt_trans hm (by norm_num))
  exact lt_of_lt_of_eq h (by norm_num)

theorem execute_on_off_toggle (B : Nat) (on_l off_l tog_l : List Int) (q : ℚ)
    (hB : B < 256) (hon : ∀ r ∈ on_l, 1 ≤ r ∧ r ≤ 4) (htogne : tog_l ≠ []) :
    (execute_relay_commands B
        { on_list := some on_l, off := some off_l, toggle := some tog_l } q).1
      = ((B ||| relays_to_mask on_l) &&& (255 ^^^ relays_to_mask off_l))
          ^^^ relays_to_mask tog_l := by
  have htogE : tog_l.isEmpty = false := List.isEmpty_eq_false.2 htogne
  rcases eq_or_ne on_l [] with hOn | hOn <;> rcases eq_or_ne off_l [] with hOff | hOff
  · subst hOn; subst hOff
    simp [execute_relay_commands, truthy, htogE, relays_to_mask_nil, Nat.or_zero,
      Nat.xor_zero, and_255_of_lt hB]
  · subst hOn
    have hOffE : off_l.isEmpty = false := List.isEmpty_eq_false.2 hOff
    simp [execute_relay_commands, truthy, htogE, hOffE, relays_to_mask_nil, Nat.or_zero]
  · subst hOff
    have hOnE : on_l.isEmpty = false := List.isEmpty_eq_false.2 hOn
    have hlt : B ||| relays_to_mask on_l < 256 := or_lt_256 hB (relays_to_mask_lt_16 hon)
    simp [execute_relay_commands, truthy, htogE, hOnE, relays_to_mask_nil, Nat.xor_zero,
      and_255_of_lt hlt]
  · have hOffE : off_l.isEmpty = false := List.isEmpty_eq_false.2 hOff
    have hOnE : on_l.isEmpty = false := List.isEmpty_eq_false.2 hOn
    simp [execute_relay_commands, truthy, htogE, hOffE, hOnE]

/-- C9: the same-relay conflict check is asymmetric: with no relay shared
between the on list and the off list, an invocation may name the same relay
in both on and toggle, or in both off and toggle — validation succeeds and
the final byte applies on, then off, then toggle in the folded order. -/
theorem C9_toggle_overlap_allowed :
    ∀ (B : Nat) (on_l off_l tog_l : List Int) (q : ℚ),
    B < 256 →
    (∀ r ∈ on_l, 1 ≤ r ∧ r ≤ 4) →
    (∀ r ∈ off_l, 1 ≤ r ∧ r ≤ 4) →
    (∀ r ∈ tog_l, 1 ≤ r ∧ r ≤ 4) →
    (∀ r ∈ off_l, r ∉ on_l) →
    ((∃ r, r ∈ on_l ∧ r ∈ tog_l) ∨ (∃ r, r ∈ off_l ∧ r ∈ tog_l)) →
    validate_arguments { on_list := some on_l, off := some off_l, toggle := some tog_l }
      = Except.ok () ∧
    (execute_relay_commands B
        { on_list := some on_l, off := some off_l, toggle := some tog_l } q).1
      = ((B ||| relays_to_mask on_l) &&& (255 ^^^ relays_to_mask off_l))
          ^^^ relays_to_mask tog_l := by
  intro B on_l off_l tog_l q hB hon hoff htog hnoconf hshared
  have htogne : tog_l ≠ [] := by
    rcases hshared with ⟨r, _, hrt⟩ | ⟨r, _, hrt⟩ <;>
      exact List.ne_nil_of_mem hrt
  refine ⟨?_, execute_on_off_toggle B on_l off_l tog_l q hB hon htogne⟩
  apply validate_arguments_ok_of
  · intro r hr
    simp only [relay_args_all, List.mem_append] at hr
    rcases hr with ((((hm | hm) | hm) | hm) | hm) <;>
      first
        | exact hon r (by simpa using hm)
        | exact hoff r (by simpa using hm)
        | exact htog r (by simpa using hm)
        | simp at hm
  · simp [truthy]
  · intro r hroff hron
    exact hnoconf r (by simpa using hroff) (by simpa using hron)
  · simp

theorem C9_toggle_overlap_allowed_witness :
    (0 : Nat) < 256 ∧ (∀ r ∈ ([1] : List Int), 1 ≤ r ∧ r ≤ 4) ∧
    validate_arguments { on_list := some [1], off := some [2], toggle := some [1] }
      = Except.ok () ∧
    (execute_relay_commands 0
        { on_list := some [1], off := some [2], toggle := some [1] } 0).1
      = ((0 ||| relays_to_mask [1]) &&& (255 ^^^ relays_to_mask [2]))
          ^^^ relays_to_mask [1] :=
  ⟨by norm_num, by decide,
    (C9_toggle_overlap_allowed 0 [1] [2] [1] 0 (by norm_num) (by decide) (by decide)
      (by decide) (by decide) (Or.inl ⟨1, by decide, by decide⟩)).1,
    (C9_toggle_overlap_allowed 0 [1] [2] [1] 0 (by norm_num) (by decide) (by decide)
      (by decide) (by decide) (Or.inl ⟨1, by decide, by decide⟩)).2⟩

/-- C10 counterexample: an invocation with no relay intent at all but with a
duration flag does not pass validation — it exits CONFLICTING_FLAGS with no
device action at all, so it neither connects nor performs a read. -/
theorem C10_counterexample :
    validate_arguments { duration := some 1 }
      = Except.error (RelayError.conflictingFlags Conflict.durationWithoutMomentary) ∧
    main_cli ⟨["A"], 0, none⟩ none { duration := some 1 } 0
      = (ExitCode.CONFLICTING_FLAGS, []) :=
  ⟨rfl, rfl⟩

/-- C10 (amended): an invocation with none of the five relay flags, no
duration and no list-devices flag passes validation; when device selection
and connection succeed, it performs exactly one state read and zero state
writes, exits SUCCESS, and leaves the device byte unchanged. -/
theorem C10_no_intent_reads_once :
    ∀ (w : World) (iface : Option Nat) (q : ℚ) (s : String),
    w.connect = none →
    select_device (list_devices w.serials) no_intent_args iface
      = Except.ok (some s) →
    validate_arguments no_intent_args = Except.ok () ∧
    main_cli w iface no_intent_args q
      = (ExitCode.SUCCESS, [Action.enumerate, Action.connect, Action.read w.byte]) ∧
    readsOf (main_cli w iface no_intent_args q).2 = [w.byte] ∧
    writesOf (main_cli w iface no_intent_args q).2 = [] ∧
    applyActions w.byte (main_cli w iface no_intent_args q).2 = w.byte := by
  intro w iface q s hconn hsel
  have hv : validate_arguments no_intent_args = Except.ok () := rfl
  have hld : no_intent_args.list_devices = false := rfl
  have hm : main_cli w iface no_intent_args q
      = (ExitCode.SUCCESS, [Action.enumerate, Action.connect, Action.read w.byte]) := by
    simp [main_cli, hld, hv, hsel, hconn, execute_no_intent]
  refine ⟨hv, hm, ?_, ?_, ?_⟩ <;> rw [hm] <;> rfl

theorem C10_no_intent_reads_once_witness :
    (⟨["A"], 7, none⟩ : World).connect = none ∧
    select_device (list_devices (⟨["A"], 7, none⟩ : World).serials)
        no_intent_args none = Except.ok (some "A") ∧
    main_cli ⟨["A"], 7, none⟩ none no_intent_args 0
      = (ExitCode.SUCCESS, [Action.enumerate, Action.connect, Action.read 7]) :=
  ⟨rfl, rfl,
    (C10_no_intent_reads_once ⟨["A"], 7, none⟩ none 0 "A" rfl rfl).2.1⟩

end Sainsmart
